/-
Verification of the build-time content optimization pipeline of the
DroidBizNextjs repository.

The definitions below are a shallow embedding of the relevant parts of
`scripts/build-optimize.js` (the `StaticBuildOptimizer` class) and of the
V3 variant of the same script (`transformExcelDataOptimized` with blog
special-casing).  JavaScript strings are modelled as Lean `String`,
JavaScript `undefined`-able record fields as `Option`, and the JS falsiness
of `undefined`, the empty string and the number `0` is modelled explicitly
by the `jsOr`-family of helpers.  File-system effects are modelled by
explicit state passing: the hash ledger and the cache directory are
association lists, and the environment (file names, file bytes, the md5
hash, the xlsx row parser, the clock and the random build id) is a record
of pure functions, since the claims under verification depend only on their
functional behaviour.
-/
import Mathlib

set_option autoImplicit false

/-! ## JavaScript string and truthiness primitives -/

/-- Characters matched by the JavaScript `\s` regex class and removed by
`String.prototype.trim` (ASCII whitespace plus the Unicode space set). -/
def isJsWhitespace (c : Char) : Bool :=
  c.toNat = 9 ∨ c.toNat = 10 ∨ c.toNat = 11 ∨ c.toNat = 12 ∨ c.toNat = 13 ∨
  c.toNat = 32 ∨ c.toNat = 0xa0 ∨ c.toNat = 0x1680 ∨
  (0x2000 ≤ c.toNat ∧ c.toNat ≤ 0x200a) ∨
  c.toNat = 0x2028 ∨ c.toNat = 0x2029 ∨ c.toNat = 0x202f ∨
  c.toNat = 0x205f ∨ c.toNat = 0x3000 ∨ c.toNat = 0xfeff

/-- JavaScript `String.prototype.trim`. -/
def strTrim (s : String) : String :=
  ⟨((s.data.dropWhile isJsWhitespace).reverse.dropWhile isJsWhitespace).reverse⟩

/-- JavaScript `String.prototype.toLowerCase`, on the ASCII range used by the
pipeline file names. -/
def asciiLower (s : String) : String :=
  ⟨s.data.map Char.toLower⟩

/-- JavaScript `str.charAt(0).toUpperCase() + str.slice(1)`
(`capitalizeFirstLetter` in `scripts/build-optimize.js`). -/
def capitalizeFirstLetter (s : String) : String :=
  match s.data with
  | [] => ""
  | c :: rest => ⟨c.toUpper :: rest⟩

/-- `path.basename(filename, ext)` for extension stripping: removes `ext`
when `filename` ends with it (the pipeline passes no directory parts). -/
def dropSuffix (s suffix : String) : String :=
  if suffix.data.isSuffixOf s.data then
    ⟨s.data.take (s.data.length - suffix.data.length)⟩
  else s

/-- Auxiliary scanner for `String.prototype.replace` with a plain-string
pattern: JavaScript replaces only the first occurrence. -/
def replaceFirstAux (pat repl : List Char) : List Char → List Char
  | [] => []
  | c :: rest =>
    if pat.isPrefixOf (c :: rest) then repl ++ (c :: rest).drop pat.length
    else c :: replaceFirstAux pat repl rest

/-- JavaScript `String.prototype.replace(pat, repl)` with string `pat`. -/
def replaceFirst (s pat repl : String) : String :=
  ⟨replaceFirstAux pat.data repl.data s.data⟩

/-- Auxiliary scanner for `String.prototype.includes`. -/
def strContainsAux (pat : List Char) : List Char → Bool
  | [] => pat.isPrefixOf ([] : List Char)
  | c :: rest => pat.isPrefixOf (c :: rest) || strContainsAux pat rest

/-- JavaScript `String.prototype.includes`. -/
def strContains (s pat : String) : Bool :=
  strContainsAux pat.data s.data

/-- JavaScript `v || d` for an optional string field: `undefined` and the
empty string are falsy. -/
def jsOr (v : Option String) (d : String) : String :=
  match v with
  | some s => if s = "" then d else s
  | none => d

/-- JavaScript `s || d` for a string already known to be present. -/
def jsOrS (s d : String) : String :=
  if s = "" then d else s

/-- JavaScript `v || d` for an optional numeric field: `undefined` and `0`
are falsy. -/
def jsOrNat (v : Option Nat) (d : Nat) : Nat :=
  match v with
  | some n => if n = 0 then d else n
  | none => d

/-- JavaScript truthiness of an optional string value. -/
def jsTruthyS (v : Option String) : Bool :=
  match v with
  | some s => s ≠ ""
  | none => false

/-- Splitting on the pipe character, `String.prototype.split` at each pipe:
the empty string yields one empty item, separators at the ends yield
empty items. -/
def splitPipeAux : List Char → List Char → List String
  | [], acc => [⟨acc.reverse⟩]
  | c :: rest, acc =>
    if c = '|' then ⟨acc.reverse⟩ :: splitPipeAux rest []
    else splitPipeAux rest (c :: acc)

/-- JavaScript `fieldValue.split` at each pipe. -/
def splitPipe (s : String) : List String :=
  splitPipeAux s.data []

/-! ## Spreadsheet rows

One parsed spreadsheet row (`XLSX.utils.sheet_to_json` output).  All cells
are optional: an absent cell is `none`.  The same record covers content
rows and homepage rows, mirroring the dynamic JS row objects. -/

structure Row where
  id : Option Nat := none
  type : Option Nat := none
  title : Option String := none
  url : Option String := none
  content : Option String := none
  keywords : Option String := none
  titleTag : Option String := none
  descriptionTag : Option String := none
  shortDesc : Option String := none
  «section» : Option String := none
  sectionName : Option String := none
  sectionDesc : Option String := none
  tutorialTitles : Option String := none
  tutorialUrls : Option String := none
  deriving DecidableEq, Repr

/-! ## Markdown stripping for short descriptions

`extractShortDescOptimized` in `scripts/build-optimize.js` performs one
global regex replacement removing headings, bold markers, fenced and inline
code, then collapses whitespace and trims, then truncates at 155 characters
with an ellipsis.  The scanner below models the alternation
heading / double-asterisk / lazy fenced block / inline code, tried left to
right at each position, exactly as the JS regex engine does. -/

/-- Length of the longest prefix of characters satisfying `p`. -/
def countLeading (p : Char → Bool) : List Char → Nat
  | [] => 0
  | c :: rest => if p c then countLeading p rest + 1 else 0

/-- Index of the first occurrence of three consecutive backticks, used for
the lazy quantifier of the fenced-code alternative. -/
def findTripleBacktick : List Char → Option Nat
  | [] => none
  | '`' :: '`' :: '`' :: _ => some 0
  | _ :: rest => (findTripleBacktick rest).map (· + 1)

/-- Whether the character after `hashes` leading hash marks is whitespace. -/
def headIsWs (cs : List Char) : Bool :=
  match cs.head? with
  | some c => isJsWhitespace c
  | none => false

/-- Try the regex alternation of `extractShortDescOptimized` at the current
position; returns the number of characters the first matching alternative
consumes.  Alternatives in source order: a heading marker of one to six
hashes followed by whitespace, a bold marker, a lazily closed fenced code
block, an inline code span. -/
def tryMatchAt (cs : List Char) : Option Nat :=
  let hashes := countLeading (· = '#') cs
  if 1 ≤ hashes ∧ hashes ≤ 6 ∧ headIsWs (cs.drop hashes) then
    some (hashes + countLeading isJsWhitespace (cs.drop hashes))
  else
    match cs with
    | '*' :: '*' :: _ => some 2
    | '`' :: '`' :: '`' :: rest =>
      match findTripleBacktick rest with
      | some d => some (3 + d + 3)
      | none => some 2
    | '`' :: '`' :: _ => some 2
    | '`' :: rest =>
      let run := countLeading (· ≠ '`') rest
      if rest.drop run = [] then none else some (1 + run + 1)
    | _ => none

/-- Fuel-indexed global replace-with-empty of the alternation above.  Every
match consumes at least one character, so fuel equal to the input length is
always sufficient and the fuel-exhausted branch is unreachable. -/
def stripScanAux : Nat → List Char → List Char
  | _, [] => []
  | 0, rest => rest
  | fuel + 1, c :: rest =>
    match tryMatchAt (c :: rest) with
    | some n => stripScanAux fuel (rest.drop (n - 1))
    | none => c :: stripScanAux fuel rest

/-- The first replacement of `extractShortDescOptimized`: global removal of
heading markers, bold markers, fenced code and inline code. -/
def stripScan (cs : List Char) : List Char :=
  stripScanAux cs.length cs

/-- The second replacement: each maximal whitespace run becomes one space
(`replace` of the whitespace-run regex with a single space character). -/
def collapseWsAux : Bool → List Char → List Char
  | _, [] => []
  | prevWs, c :: rest =>
    if isJsWhitespace c then
      (if prevWs then ([] : List Char) else [' ']) ++ collapseWsAux true rest
    else c :: collapseWsAux false rest

/-- The cleaned text of `extractShortDescOptimized` before truncation:
strip markdown, collapse whitespace, trim. -/
def cleanedText (c : String) : String :=
  strTrim ⟨collapseWsAux false (stripScan c.data)⟩

/-- `extractShortDescOptimized(content)` from `scripts/build-optimize.js`:
empty or absent content yields the empty string; otherwise the cleaned text,
truncated to 155 characters with an appended ellipsis when longer. -/
def extractShortDescOptimized (content : Option String) : String :=
  match content with
  | none => ""
  | some c =>
    if c = "" then ""
    else
      let cleaned := cleanedText c
      if 155 < cleaned.data.length then ⟨cleaned.data.take 155⟩ ++ "..."
      else cleaned

/-! ## Pipe-separated homepage fields -/

/-- `parsePipeSeparatedField` from `scripts/build-optimize.js`: split on the
pipe character, trim every item, drop empty items; absent or empty cells
yield the empty list. -/
def parsePipeSeparatedField (fieldValue : Option String) : List String :=
  match fieldValue with
  | none => []
  | some s =>
    if s = "" then []
    else ((splitPipe s).map strTrim).filter (· ≠ "")

/-- Insertion-ordered deduplication, the JS `[...new Set(list)]` idiom. -/
def jsSetDedupAux (seen : List String) : List String → List String
  | [] => []
  | x :: xs =>
    if x ∈ seen then jsSetDedupAux seen xs
    else x :: jsSetDedupAux (x :: seen) xs

/-- `[...new Set(list)]`: first occurrences in order. -/
def jsSetDedup (l : List String) : List String :=
  jsSetDedupAux [] l

/-- `Array.prototype.map` with the element index, used by the transformers
for positional defaults. -/
def mapIdxAux {α β : Type} (f : Nat → α → β) : Nat → List α → List β
  | _, [] => []
  | i, a :: rest => f i a :: mapIdxAux f (i + 1) rest

/-- Map with indices starting at zero. -/
def jsMapIdx {α β : Type} (f : Nat → α → β) (l : List α) : List β :=
  mapIdxAux f 0 l

/-! ## Content model of the StaticBuildOptimizer (`scripts/build-optimize.js`) -/

namespace BuildOptimize

/-- One tutorial link of a homepage section. -/
structure Tutorial where
  title : String
  url : String
  deriving DecidableEq, Repr

/-- One named homepage section. -/
structure HomeSection where
  name : String
  description : String
  tutorials : List Tutorial
  deriving DecidableEq, Repr

/-- The Homepage Document artifact produced by `transformHomepageData`.
The JS object carries the literal discriminator field `type = homepage`;
here the discriminator is the `Artifact.homepage` constructor below. -/
structure HomepageData where
  id : String
  subjectId : String
  title : String
  shortDesc : String
  sections : List HomeSection
  keywords : String
  titleTag : String
  descriptionTag : String
  totalSections : Nat
  totalTutorials : Nat
  lastUpdated : String
  deriving DecidableEq, Repr

/-- One normalized content item of `transformExcelDataOptimized`. -/
structure ContentItem where
  id : Nat
  title : String
  url : String
  type : Nat
  content : String
  keywords : String
  titleTag : String
  descriptionTag : String
  shortDesc : String
  «section» : String
  lastModified : String
  deriving DecidableEq, Repr

/-- The Subject artifact produced by `transformExcelDataOptimized`. -/
structure SubjectData where
  id : String
  name : String
  base_url : String
  content : List ContentItem
  sections : List String
  keywords : String
  titleTag : String
  descriptionTag : String
  totalPages : Nat
  totalSections : Nat
  lastUpdated : String
  deriving DecidableEq, Repr

/-! ### Homepage transformation (`transformHomepageData`) -/

/-- Per-row section name: `row.sectionName?.trim() || General`. -/
def rowSectionName (row : Row) : String :=
  jsOr (row.sectionName.map strTrim) "General"

/-- Per-row section description:
`row.sectionDesc?.trim() || the default description`. -/
def rowSectionDesc (row : Row) : String :=
  jsOr (row.sectionDesc.map strTrim) "Learn programming concepts"

/-- The per-row tutorial construction of `transformHomepageData` together
with its length-mismatch diagnostic flag: parse both pipe-separated lists,
warn on a length mismatch and truncate both lists to the shorter length
(the `splice(minLength)` calls), then keep the pairs whose title and url
are both truthy. -/
def rowTutorialsDiag (row : Row) : List Tutorial × Bool :=
  let tutorialTitles := parsePipeSeparatedField row.tutorialTitles
  let tutorialUrls := parsePipeSeparatedField row.tutorialUrls
  let warned := tutorialTitles.length ≠ tutorialUrls.length
  let minLength := min tutorialTitles.length tutorialUrls.length
  let titles := tutorialTitles.take minLength
  let urls := tutorialUrls.take minLength
  ((titles.zip urls).filterMap fun p =>
      if p.1 ≠ "" ∧ p.2 ≠ "" then some ⟨p.1, p.2⟩ else none,
    warned)

/-- The tutorials pushed for one homepage row. -/
def rowTutorials (row : Row) : List Tutorial :=
  (rowTutorialsDiag row).1

/-- The section pushed for one homepage row, if any: a row is only added
when its tutorials list is nonempty. -/
def rowSection? (row : Row) : Option HomeSection :=
  match rowTutorials row with
  | [] => none
  | t :: ts =>
    some { name := rowSectionName row, description := rowSectionDesc row,
           tutorials := t :: ts }

/-- The `sections` accumulator of `transformHomepageData`: the rows are
visited in order and each contributing row is pushed at the end. -/
def homepageSections (rows : List Row) : List HomeSection :=
  rows.foldl
    (fun acc row =>
      match rowSection? row with
      | some s => acc ++ [s]
      | none => acc)
    []

/-- `transformHomepageData(excelData, subjectName)`: metadata from the
first row with subject-derived defaults, sections from every row, totals
recomputed from the sections; throws when there are no rows. -/
def transformHomepageData (rows : List Row) (subjectName now : String) :
    Except String HomepageData :=
  match rows with
  | [] => .error "No homepage data found"
  | firstRow :: _ =>
    let title := jsOr firstRow.title (capitalizeFirstLetter subjectName ++ " Tutorial")
    let shortDesc := jsOr firstRow.shortDesc ("Learn " ++ subjectName ++ " programming")
    let keywords := jsOr firstRow.keywords (subjectName ++ ", programming, tutorial")
    let titleTag := jsOr firstRow.titleTag title
    let descriptionTag := jsOr firstRow.descriptionTag shortDesc
    let sections := homepageSections rows
    .ok
      { id := subjectName ++ "_home"
        subjectId := subjectName
        title := title
        shortDesc := shortDesc
        sections := sections
        keywords := keywords
        titleTag := titleTag
        descriptionTag := descriptionTag
        totalSections := sections.length
        totalTutorials := (sections.map (fun s => s.tutorials.length)).sum
        lastUpdated := now }

/-- `validateHomepageData`: throws when the title is falsy, when there is
no section, when a section name is falsy, or when a tutorial lacks a truthy
title or url; sections without tutorials only warn. -/
def validateHomepageData (d : HomepageData) : Except String Unit :=
  if d.title = "" then .error "Homepage must have a title"
  else if d.sections.isEmpty then .error "Homepage must have at least one section"
  else if d.sections.any (fun s => s.name = "") then .error "Section must have a name"
  else if d.sections.any (fun s => s.tutorials.any (fun t => t.title = "" || t.url = "")) then
    .error "Tutorial must have a title and a URL"
  else .ok ()

/-! ### Subject transformation (`transformExcelDataOptimized`) -/

/-- The per-row content item of `transformExcelDataOptimized`, with the
positional defaults of the source. -/
def contentItemOfRow (now : String) (index : Nat) (row : Row) : ContentItem :=
  { id := jsOrNat row.id (index + 1)
    title := jsOr row.title ("Untitled " ++ toString (index + 1))
    url := jsOr row.url ("page-" ++ toString (index + 1))
    type := jsOrNat row.type 1
    content := jsOr row.content ""
    keywords := jsOr row.keywords ""
    titleTag := jsOr row.titleTag (jsOr row.title "")
    descriptionTag := jsOr row.descriptionTag ""
    shortDesc := jsOr row.shortDesc (extractShortDescOptimized row.content)
    «section» := jsOr row.«section» "General"
    lastModified := now }

/-- `transformExcelDataOptimized(excelData, subjectName)` of the
StaticBuildOptimizer: every item carries `section` and `type`, and the
subject aggregates the distinct section labels in first-occurrence order. -/
def transformExcelDataOptimized (rows : List Row) (subjectName now : String) :
    SubjectData :=
  let content := jsMapIdx (contentItemOfRow now) rows
  let baseUrl := if subjectName = "blogs" then "/blogs" else "/" ++ subjectName
  let sections := jsSetDedup (content.map (fun item => item.«section»))
  { id := subjectName
    name := capitalizeFirstLetter subjectName
    base_url := baseUrl
    content := content
    sections := sections
    keywords := jsOr (content.head?.map (fun item => item.keywords)) ""
    titleTag := jsOr (content.head?.map (fun item => item.titleTag))
      (capitalizeFirstLetter subjectName ++ " Tutorial")
    descriptionTag := jsOr (content.head?.map (fun item => item.descriptionTag))
      ("Learn " ++ subjectName ++ " programming.")
    totalPages := content.length
    totalSections := sections.length
    lastUpdated := now }

end BuildOptimize

namespace BuildOptimize

/-! ### Cache directory, hash ledger and run environment -/

/-- One JSON artifact of the cache directory.  The constructor plays the
role of the `type` discriminator: `homepage` artifacts carry
`type = homepage` in the JS object, subject artifacts carry no `type`
field and are recognised by their `content` array. -/
inductive Artifact where
  | subject (s : SubjectData)
  | homepage (h : HomepageData)
  deriving DecidableEq, Repr

/-- The cache directory restricted to data artifacts (the code filters out
`manifest.json` and `file-hashes.json` wherever it scans the directory),
as an association list from output file name to parsed JSON. -/
abbrev Cache := List (String × Artifact)

/-- The file-hash ledger `file-hashes.json`: source file name to md5 hex. -/
abbrev Ledger := List (String × String)

/-- Keyed insertion into an association list: JS object property
assignment and file overwrite both replace the existing entry. -/
def assocInsert {α : Type} : List (String × α) → String → α → List (String × α)
  | [], k, a => [(k, a)]
  | (k', a') :: rest, k, a =>
    if k' = k then (k, a) :: rest else (k', a') :: assocInsert rest k a

/-- The run environment: the sorted source file listing, the bytes of each
source file, the md5 hash (`crypto.createHash(md5)`, abstracted as a
function of the bytes since every claim depends only on its determinism),
the xlsx row parser (`XLSX.read` plus `sheet_to_json`, a function of the
file bytes), the clock (`new Date().toISOString()`) and the random build
id (`crypto.randomBytes(8).toString(hex)`). -/
structure Env where
  files : List String
  bytes : String → List Nat
  md5 : List Nat → String
  parseRows : List Nat → List Row
  now : String
  buildId : String

/-- Whether a source file is a homepage variant:
`filename.includes(_home.)`. -/
def isHomepageFile (filename : String) : Bool :=
  strContains filename "_home."

/-- The subject name derived in `processExcelFile`:
`path.basename(filename, .xlsx)`, with the first `_home` removed for
homepage variants, lowercased. -/
def subjectNameOf (filename : String) : String :=
  if isHomepageFile filename then
    asciiLower (replaceFirst (dropSuffix filename ".xlsx") "_home" "")
  else
    asciiLower (dropSuffix filename ".xlsx")

/-- The cache file name an input file is written to (also recomputed by
`copyUnchangedFiles` for unchanged files). -/
def outputFilenameOf (filename : String) : String :=
  if isHomepageFile filename then subjectNameOf filename ++ "_home.json"
  else subjectNameOf filename ++ ".json"

/-- The per-file result record returned by `processExcelFile` (the JSON
byte size of the artifact is not modelled; no claim concerns it). -/
structure PFileResult where
  pages : Nat
  sections : Nat
  tutorials : Nat
  rtype : String
  deriving DecidableEq, Repr

/-- `processExcelFile(filename)`: read and parse the spreadsheet, throw on
zero rows, dispatch on the homepage file-name convention, validate
homepage data, and produce the artifact to be written together with the
per-file statistics. -/
def processExcelFile (env : Env) (filename : String) :
    Except String (String × Artifact × PFileResult) :=
  let subjectName := subjectNameOf filename
  let rows := env.parseRows (env.bytes filename)
  if rows.isEmpty then
    .error ("Failed to process " ++ filename ++ ": No data found in Excel file")
  else if isHomepageFile filename then
    match transformHomepageData rows subjectName env.now with
    | .error e => .error ("Failed to process " ++ filename ++ ": " ++ e)
    | .ok d =>
      match validateHomepageData d with
      | .error e => .error ("Failed to process " ++ filename ++ ": " ++ e)
      | .ok _ =>
        .ok (subjectName ++ "_home.json", .homepage d,
             { pages := d.sections.length
               sections := d.sections.length
               tutorials := d.totalTutorials
               rtype := "homepage" })
  else
    let d := transformExcelDataOptimized rows subjectName env.now
    .ok (subjectName ++ ".json", .subject d,
         { pages := d.content.length
           sections := jsOrNat (some d.totalSections) 1
           tutorials := d.content.length
           rtype := "content" })

/-- `detectChangedFiles(allFiles)`: partition the source files into changed
and unchanged by comparing the md5 of the current bytes with the ledger
entry, updating the in-memory ledger for every changed file. -/
def detectChangedFiles (env : Env) (ledger : Ledger) :
    List String → List String × List String × Ledger
  | [] => ([], [], ledger)
  | f :: rest =>
    let currentHash := env.md5 (env.bytes f)
    if List.lookup f ledger = some currentHash then
      let d := detectChangedFiles env ledger rest
      (d.1, f :: d.2.1, d.2.2)
    else
      let d := detectChangedFiles env (assocInsert ledger f currentHash) rest
      (f :: d.1, d.2.1, d.2.2)

/-- The per-chunk statistics accumulator of `processChunk` (byte sizes are
not modelled). -/
structure ChunkStats where
  filesProcessed : Nat := 0
  totalPages : Nat := 0
  errors : Nat := 0
  deriving DecidableEq, Repr

/-- `processChunk(files)`: process each file in order, catching per-file
errors: a failing file only increments the error counter and writes
nothing, the loop continues with the remaining files. -/
def processChunk (env : Env) : List String → Cache → ChunkStats × Cache
  | [], cache => ({}, cache)
  | f :: rest, cache =>
    match processExcelFile env f with
    | .ok (outName, art, res) =>
      let p := processChunk env rest (assocInsert cache outName art)
      ({ p.1 with
          filesProcessed := p.1.filesProcessed + 1
          totalPages := p.1.totalPages + res.pages }, p.2)
    | .error _ =>
      let p := processChunk env rest cache
      ({ p.1 with errors := p.1.errors + 1 }, p.2)

/-- The page count folded into the statistics for one unchanged file by
`copyUnchangedFiles`: homepage variants count their cached sections,
others count their cached content items; a missing cached artifact
contributes nothing. -/
def unchangedFilePages (cache : Cache) (filename : String) : Nat :=
  match List.lookup (outputFilenameOf filename) cache with
  | none => 0
  | some (.homepage h) =>
    if isHomepageFile filename then h.sections.length else 0
  | some (.subject s) =>
    if isHomepageFile filename then s.sections.length else s.content.length

/-- `copyUnchangedFiles(unchangedFiles)`: fold cached page counts of the
unchanged files into the statistics (the cache itself is only read). -/
def copyUnchangedFiles (cache : Cache) (unchangedFiles : List String) : Nat :=
  (unchangedFiles.map (unchangedFilePages cache)).sum

/-! ### Manifest building (`updateManifest`) -/

/-- A subject summary entry of the manifest. -/
structure SubjectInfo where
  id : String
  name : String
  base_url : String
  totalPages : Nat
  totalSections : Nat
  sections : List String
  lastModified : String
  keywords : String
  titleTag : String
  descriptionTag : String
  deriving DecidableEq, Repr

/-- A homepage summary entry of the manifest. -/
structure HomepageInfo where
  id : String
  subjectId : String
  title : String
  shortDesc : String
  totalSections : Nat
  totalTutorials : Nat
  lastModified : String
  keywords : String
  titleTag : String
  descriptionTag : String
  deriving DecidableEq, Repr

/-- The persisted manifest (`manifest.json`); the nested `buildStats`
block duplicates run statistics and is not modelled separately. -/
structure Manifest where
  subjects : List SubjectInfo
  homepages : List HomepageInfo
  totalFiles : Nat
  totalPages : Nat
  lastUpdated : String
  buildId : String
  deriving DecidableEq, Repr

/-- The subject summary `updateManifest` builds from one subject artifact;
`now` is the fallback used when the artifact carries a falsy
`lastUpdated`. -/
def subjectInfoOf (now : String) (s : SubjectData) : SubjectInfo :=
  { id := s.id
    name := s.name
    base_url := s.base_url
    totalPages := s.content.length
    totalSections := jsOrNat (some s.totalSections) 1
    sections := s.sections
    lastModified := jsOrS s.lastUpdated now
    keywords := s.keywords
    titleTag := jsOrS s.titleTag (s.name ++ " Tutorial")
    descriptionTag := jsOrS s.descriptionTag ("Learn " ++ s.name ++ " programming.") }

/-- The homepage summary `updateManifest` builds from one homepage
artifact (all fields copied verbatim). -/
def homepageInfoOf (h : HomepageData) : HomepageInfo :=
  { id := h.id
    subjectId := h.subjectId
    title := h.title
    shortDesc := h.shortDesc
    totalSections := h.totalSections
    totalTutorials := h.totalTutorials
    lastModified := h.lastUpdated
    keywords := h.keywords
    titleTag := h.titleTag
    descriptionTag := h.descriptionTag }

/-- The directory scan of `updateManifest`: homepage artifacts go to the
`homepages` list, artifacts with a content array go to the `subjects` list
and contribute their content length to the page total. -/
def manifestEntries (now : String) : Cache → List SubjectInfo × List HomepageInfo × Nat
  | [] => ([], [], 0)
  | (_, a) :: rest =>
    let p := manifestEntries now rest
    match a with
    | .homepage h => (p.1, homepageInfoOf h :: p.2.1, p.2.2)
    | .subject s => (subjectInfoOf now s :: p.1, p.2.1, p.2.2 + s.content.length)

/-- `updateManifest(allFiles)`: rebuild the manifest lists from scratch by
scanning the cache directory, then set the aggregates, the timestamp and
a fresh build id. -/
def updateManifest (env : Env) (cache : Cache) : Manifest :=
  let (ss, hs, totalPagesCount) := manifestEntries env.now cache
  { subjects := ss
    homepages := hs
    totalFiles := env.files.length
    totalPages := totalPagesCount
    lastUpdated := env.now
    buildId := env.buildId }

/-! ### The pipeline run (`optimize`) -/

/-- The run statistics surfaced at the end of `optimize`. -/
structure Stats where
  filesProcessed : Nat
  filesSkipped : Nat
  totalPages : Nat
  errors : Nat
  deriving DecidableEq, Repr

/-- The observable outcome of one pipeline run: the persisted hash ledger,
the cache directory contents, the persisted manifest and the statistics. -/
structure RunResult where
  ledger : Ledger
  cache : Cache
  manifest : Manifest
  stats : Stats
  deriving Repr

/-- One full `optimize()` run: detect changes (updating the in-memory
ledger), process the changed files (the fork-join worker pool writes each
file independently and merges the per-chunk statistics; it is modelled by
processing the concatenation of the chunks in order), fold the unchanged
files into the statistics, rebuild the manifest from the cache directory,
then persist manifest and ledger. -/
def runPipeline (env : Env) (ledger₀ : Ledger) (cache₀ : Cache) : RunResult :=
  let det := detectChangedFiles env ledger₀ env.files
  let pc := processChunk env det.1 cache₀
  let skippedPages := copyUnchangedFiles pc.2 det.2.1
  { ledger := det.2.2
    cache := pc.2
    manifest := updateManifest env pc.2
    stats :=
      { filesProcessed := pc.1.filesProcessed
        filesSkipped := det.2.1.length
        totalPages := pc.1.totalPages + skippedPages
        errors := pc.1.errors } }

end BuildOptimize

/-! ## V3 variant of the build script

The repository also contains the V3 build script, whose
`transformExcelDataOptimized` special-cases blog subjects: blog content
items omit `type` and `section`, and the blog subject record omits the
`sections` aggregate and `totalSections`.  Optional emission of those
fields is modelled with `Option`. -/

namespace V3

/-- Whether a character is in the JS `\w` class. -/
def isWordChar (c : Char) : Bool :=
  c.isAlpha || c.isDigit || c = '_'

/-- Scanner for the word-initial uppercase replacement of
`capitalizeWords`: a word character is uppercased exactly when the
previous character is not a word character. -/
def capWordsAux : Bool → List Char → List Char
  | _, [] => []
  | prevWord, c :: rest =>
    if isWordChar c then
      (if prevWord then c else c.toUpper) :: capWordsAux true rest
    else c :: capWordsAux false rest

/-- `capitalizeWords` of the V3 script: hyphens and underscores become
spaces, each word is capitalized, and the result is trimmed. -/
def capitalizeWords (s : String) : String :=
  strTrim ⟨capWordsAux false
    (s.data.map fun c => if c = '-' ∨ c = '_' then ' ' else c)⟩

/-- A content item of the V3 `transformExcelDataOptimized`.  The `type`
and `section` fields are absent (`none`) exactly when the V3 transformer
omits them from the emitted object. -/
structure Item where
  id : Nat
  title : String
  url : String
  content : String
  keywords : String
  titleTag : String
  descriptionTag : String
  shortDesc : String
  lastModified : String
  type : Option Nat
  «section» : Option String
  deriving DecidableEq, Repr

/-- A subject record of the V3 `transformExcelDataOptimized`; `sections`
and `totalSections` are absent (`none`) when omitted for blog subjects. -/
structure Subject where
  id : String
  name : String
  base_url : String
  content : List Item
  keywords : String
  titleTag : String
  descriptionTag : String
  totalPages : Nat
  lastUpdated : String
  sections : Option (List String)
  totalSections : Option Nat
  deriving DecidableEq, Repr

/-- The per-row item of the V3 transformer: the base item always, `type`
and `section` added only for non-blog subjects. -/
def itemOfRow (subjectName now : String) (index : Nat) (row : Row) : Item :=
  { id := jsOrNat row.id (index + 1)
    title := jsOr row.title ("Untitled " ++ toString (index + 1))
    url := jsOr row.url ("page-" ++ toString (index + 1))
    content := jsOr row.content ""
    keywords := jsOr row.keywords ""
    titleTag := jsOr row.titleTag (jsOr row.title "")
    descriptionTag := jsOr row.descriptionTag ""
    shortDesc := jsOr row.shortDesc (extractShortDescOptimized row.content)
    lastModified := now
    type := if subjectName = "blogs" then none else some (jsOrNat row.type 1)
    «section» := if subjectName = "blogs" then none
      else some (jsOr row.«section» "General") }

/-- `transformExcelDataOptimized(excelData, subjectName)` of the V3
script: blog subjects get an empty section universe and omit the
`sections` aggregate; other subjects aggregate the distinct truthy
section labels of their items. -/
def transformExcelDataOptimized (rows : List Row) (subjectName now : String) :
    Subject :=
  let content := jsMapIdx (itemOfRow subjectName now) rows
  let baseUrl := if subjectName = "blogs" then "/blogs" else "/" ++ subjectName
  let sections :=
    if subjectName = "blogs" then []
    else jsSetDedup ((content.filterMap (fun item => item.«section»)).filter (· ≠ ""))
  { id := subjectName
    name := capitalizeWords subjectName
    base_url := baseUrl
    content := content
    keywords := jsOr (content.head?.map (fun item => item.keywords)) ""
    titleTag := jsOr (content.head?.map (fun item => item.titleTag))
      (capitalizeWords subjectName ++
        (if subjectName = "blogs" then " Blog" else " Tutorial"))
    descriptionTag := jsOr (content.head?.map (fun item => item.descriptionTag))
      ((if subjectName = "blogs" then "Read our latest blog posts"
        else "Learn " ++ capitalizeWords subjectName ++ " programming") ++ ".")
    totalPages := content.length
    lastUpdated := now
    sections := if subjectName = "blogs" then none else some sections
    totalSections := if subjectName = "blogs" then none else some sections.length }

end V3

namespace BuildOptimize

/-! ### Derived observations on artifacts -/

/-- The id field of an artifact. -/
def artifactId : Artifact → String
  | .subject s => s.id
  | .homepage h => h.id

/-- The timestamp of an artifact. -/
def artifactStamp : Artifact → String
  | .subject s => s.lastUpdated
  | .homepage h => h.lastUpdated

/-- The `content.length` of a Subject artifact; `none` for Homepage
Documents, which carry the `homepage` type discriminator instead of a
content array. -/
def subjectPages? : Artifact → Option Nat
  | .subject s => some s.content.length
  | .homepage _ => none

/-- Whether an artifact is a Homepage Document (carries the `homepage`
type discriminator). -/
def isHomepageArtifact : Artifact → Bool
  | .subject _ => false
  | .homepage _ => true

/-- An artifact whose manifest summary does not depend on the clock: every
subject artifact must carry a truthy `lastUpdated` (homepage summaries
never consult the clock). -/
def subjectStampOK : Artifact → Bool
  | .subject s => s.lastUpdated ≠ ""
  | .homepage _ => true

end BuildOptimize

/-! ## Claim-specific auxiliary definitions

Spec-side definitions for the refinement claims and the concrete
environments used by witnesses and counterexamples. -/

namespace BuildOptimize

/-- The Subject id the spec attributes to a source file name, as
implemented: base name with the `.xlsx` extension removed, lowercased
(the code applies no further slugification). -/
def specSubjectId (filename : String) : String :=
  asciiLower (dropSuffix filename ".xlsx")

/-- Spec-side, from the specification of the homepage transformer: whether
a row carries any of the section fields. -/
def hasSectionFields (r : Row) : Bool :=
  jsTruthyS r.sectionName || jsTruthyS r.sectionDesc ||
  jsTruthyS r.tutorialTitles || jsTruthyS r.tutorialUrls

/-- Spec-side: layout (b) of a homepage spreadsheet — a dedicated first
metadata row followed by pure section rows — is detected exactly when the
first row has a title but no section fields. -/
def detectLayoutB : List Row → Bool
  | [] => false
  | r :: _ => jsTruthyS r.title && !hasSectionFields r

/-- Spec-side: the dispatching homepage parser of the specification.
The metadata always comes from the first row; under layout (b) the
section parser runs on the remaining rows only, under layout (a) it runs
on every row. -/
def specHomepageParse (rows : List Row) (subjectName now : String) :
    Except String HomepageData :=
  match rows with
  | [] => .error "No homepage data found"
  | firstRow :: rest =>
    let title := jsOr firstRow.title (capitalizeFirstLetter subjectName ++ " Tutorial")
    let shortDesc := jsOr firstRow.shortDesc ("Learn " ++ subjectName ++ " programming")
    let keywords := jsOr firstRow.keywords (subjectName ++ ", programming, tutorial")
    let titleTag := jsOr firstRow.titleTag title
    let descriptionTag := jsOr firstRow.descriptionTag shortDesc
    let sectionRows := if detectLayoutB (firstRow :: rest) then rest else firstRow :: rest
    let sections := sectionRows.filterMap rowSection?
    .ok
      { id := subjectName ++ "_home"
        subjectId := subjectName
        title := title
        shortDesc := shortDesc
        sections := sections
        keywords := keywords
        titleTag := titleTag
        descriptionTag := descriptionTag
        totalSections := sections.length
        totalTutorials := (sections.map (fun s => s.tutorials.length)).sum
        lastUpdated := now }

/-- Concrete one-file environment for the second-run witness. -/
def envC2 : Env :=
  { files := ["Kotlin.xlsx"]
    bytes := fun _ => [1]
    md5 := fun bs => toString bs.length
    parseRows := fun bs =>
      if bs = [1] then [{ title := some "Intro", url := some "intro" }] else []
    now := "T1"
    buildId := "B1" }

/-- Concrete environment for the subject-id theorems: one content file
named `Jetpack_Compose.xlsx` with a single row. -/
def envC3 : Env :=
  { files := ["Jetpack_Compose.xlsx"]
    bytes := fun _ => [1]
    md5 := fun bs => toString bs.length
    parseRows := fun bs =>
      if bs = [1] then [{ title := some "Intro", url := some "intro" }] else []
    now := "T1"
    buildId := "B1" }

/-- Concrete environment for the zero-row failure witness: `Bad.xlsx`
parses to zero rows, `Good.xlsx` parses to one row. -/
def envC8 : Env :=
  { files := ["Bad.xlsx", "Good.xlsx"]
    bytes := fun f => if f = "Bad.xlsx" then [0] else [1]
    md5 := fun bs => toString bs.length
    parseRows := fun bs =>
      if bs = [1] then [{ title := some "Intro", url := some "intro" }] else []
    now := "T1"
    buildId := "B1" }

/-- Concrete environment for the failed-transform ledger witness: the only
source file parses to zero rows, so its transformation always fails. -/
def envC10 : Env :=
  { files := ["Bad.xlsx"]
    bytes := fun _ => [0]
    md5 := fun bs => toString bs.length
    parseRows := fun _ => []
    now := "T1"
    buildId := "B1" }

end BuildOptimize

/-- First homepage row of the duplicate-section counterexample. -/
def rowC5a : Row :=
  { sectionName := some "Basics", tutorialTitles := some "A", tutorialUrls := some "a" }

/-- Second homepage row of the duplicate-section counterexample, with the
same section name. -/
def rowC5b : Row :=
  { sectionName := some "Basics", tutorialTitles := some "B", tutorialUrls := some "b" }

/-- Homepage row with three tutorial titles and two tutorial urls, for the
mismatch witness. -/
def rowC4 : Row :=
  { sectionName := some "Basics", tutorialTitles := some "A|B|C",
    tutorialUrls := some "a|b" }

/-- Content row of the short-description scenario: title and url present,
no `shortDesc`, markdown content. -/
def rowC7 : Row :=
  { title := some "Intro", content := some "# Intro\nHello world",
    url := some "intro" }

/-- Content row used by the blog-field witness. -/
def rowC9 : Row :=
  { title := some "T", url := some "u", content := some "c" }

/-! ## Basic lemmas about the helpers -/

namespace BuildOptimize

theorem lookup_assocInsert_self {α : Type} (l : List (String × α)) (k : String) (v : α) :
    List.lookup k (assocInsert l k v) = some v := by
  induction l with
  | nil => simp [assocInsert, List.lookup]
  | cons hd tl ih =>
    cases hd with
    | mk k' a' =>
      by_cases h : k' = k
      · subst h
        simp [assocInsert, List.lookup]
      · have hb : (k == k') = false := beq_eq_false_iff_ne.mpr (Ne.symm h)
        simp [assocInsert, if_neg h, List.lookup, hb, ih]

theorem lookup_assocInsert_ne {α : Type} (l : List (String × α)) (k k' : String) (v : α)
    (h : k' ≠ k) :
    List.lookup k' (assocInsert l k v) = List.lookup k' l := by
  have hb : (k' == k) = false := beq_eq_false_iff_ne.mpr h
  induction l with
  | nil => simp [assocInsert, List.lookup, hb]
  | cons hd tl ih =>
    cases hd with
    | mk k₀ a₀ =>
      by_cases h₀ : k₀ = k
      · subst h₀
        simp [assocInsert, List.lookup, hb]
      · simp [assocInsert, if_neg h₀, List.lookup, ih]

theorem mem_assocInsert {α : Type} {kv : String × α} {l : List (String × α)}
    {k : String} {v : α} (h : kv ∈ assocInsert l k v) : kv ∈ l ∨ kv = (k, v) := by
  induction l with
  | nil => simpa [assocInsert] using h
  | cons hd tl ih =>
    cases hd with
    | mk k₀ a₀ =>
      by_cases h₀ : k₀ = k
      · subst h₀
        simp only [assocInsert, if_pos rfl] at h
        rcases List.mem_cons.mp h with h | h
        · exact Or.inr h
        · exact Or.inl (List.mem_cons_of_mem _ h)
      · simp only [assocInsert, if_neg h₀] at h
        rcases List.mem_cons.mp h with h | h
        · exact Or.inl (h ▸ List.mem_cons_self _ _)
        · rcases ih h with h | h
          · exact Or.inl (List.mem_cons_of_mem _ h)
          · exact Or.inr h

theorem parsePipe_mem_ne {v : Option String} {x : String}
    (h : x ∈ parsePipeSeparatedField v) : x ≠ "" := by
  cases v with
  | none => simp [parsePipeSeparatedField] at h
  | some s =>
    by_cases hs : s = ""
    · simp [parsePipeSeparatedField, hs] at h
    · simp only [parsePipeSeparatedField, if_neg hs] at h
      exact of_decide_eq_true (List.mem_filter.mp h).2

theorem parsePipe_falsy {v : Option String} (h : jsTruthyS v = false) :
    parsePipeSeparatedField v = [] := by
  cases v with
  | none => rfl
  | some s =>
    have hs : s = "" := by
      by_contra hne
      simp [jsTruthyS, hne] at h
    simp [parsePipeSeparatedField, hs]

theorem homepageSections_eq_filterMap (rows : List Row) :
    homepageSections rows = rows.filterMap rowSection? := by
  have general : ∀ (rs : List Row) (acc : List HomeSection),
      rs.foldl
        (fun acc row =>
          match rowSection? row with
          | some s => acc ++ [s]
          | none => acc)
        acc = acc ++ rs.filterMap rowSection? := by
    intro rs
    induction rs with
    | nil => intro acc; simp
    | cons r rest ih =>
      intro acc
      cases h : rowSection? r with
      | none => simp [List.foldl_cons, h, ih]
      | some s => simp [List.foldl_cons, h, ih]
  simpa using general rows []

end BuildOptimize

namespace BuildOptimize

/-! ## Lemmas about change detection -/

theorem detect_ledger_preserves (env : Env) (files : List String) (ledger : Ledger)
    (g : String) (h : List.lookup g ledger = some (env.md5 (env.bytes g))) :
    List.lookup g (detectChangedFiles env ledger files).2.2 =
      some (env.md5 (env.bytes g)) := by
  induction files generalizing ledger with
  | nil => simpa [detectChangedFiles] using h
  | cons f rest ih =>
    by_cases hf : List.lookup f ledger = some (env.md5 (env.bytes f))
    · simpa [detectChangedFiles, hf] using ih ledger h
    · simp only [detectChangedFiles, if_neg hf]
      apply ih
      by_cases hg : g = f
      · subst hg
        simp [lookup_assocInsert_self]
      · rwa [lookup_assocInsert_ne _ _ _ _ hg]

theorem detect_ledger_complete (env : Env) (files : List String) (ledger : Ledger)
    (f : String) (hf : f ∈ files) :
    List.lookup f (detectChangedFiles env ledger files).2.2 =
      some (env.md5 (env.bytes f)) := by
  induction files generalizing ledger with
  | nil => cases hf
  | cons g rest ih =>
    rcases List.mem_cons.mp hf with h | h
    · subst h
      by_cases hg : List.lookup f ledger = some (env.md5 (env.bytes f))
      · simp only [detectChangedFiles, if_pos hg]
        exact detect_ledger_preserves env rest ledger f hg
      · simp only [detectChangedFiles, if_neg hg]
        exact detect_ledger_preserves env rest _ f (lookup_assocInsert_self ledger f _)
    · by_cases hg : List.lookup g ledger = some (env.md5 (env.bytes g))
      · simp only [detectChangedFiles, if_pos hg]
        exact ih ledger h
      · simp only [detectChangedFiles, if_neg hg]
        exact ih _ h

theorem detect_all_unchanged (env : Env) (files : List String) (ledger : Ledger)
    (h : ∀ f ∈ files, List.lookup f ledger = some (env.md5 (env.bytes f))) :
    detectChangedFiles env ledger files = ([], files, ledger) := by
  induction files with
  | nil => rfl
  | cons f rest ih =>
    have hf := h f (List.mem_cons_self _ _)
    have hrest := ih fun g hg => h g (List.mem_cons_of_mem _ hg)
    simp [detectChangedFiles, hf, hrest]

/-! ## Lemmas about file processing -/

theorem transformHomepageData_stamp {rows : List Row} {n now : String}
    {d : HomepageData} (h : transformHomepageData rows n now = .ok d) :
    d.lastUpdated = now := by
  cases rows with
  | nil => simp [transformHomepageData] at h
  | cons r rest =>
    simp only [transformHomepageData, Except.ok.injEq] at h
    rw [← h]

theorem processExcelFile_stamp {env : Env} {f outName : String} {art : Artifact}
    {res : PFileResult} (h : processExcelFile env f = .ok (outName, art, res)) :
    artifactStamp art = env.now := by
  by_cases hempty : (env.parseRows (env.bytes f)).isEmpty
  · simp [processExcelFile, hempty] at h
  · by_cases hhome : isHomepageFile f
    · simp only [processExcelFile, hempty, hhome, Bool.false_eq_true, if_false, if_true] at h
      cases htr : transformHomepageData (env.parseRows (env.bytes f)) (subjectNameOf f) env.now with
      | error e => simp [htr] at h
      | ok d =>
        cases hv : validateHomepageData d with
        | error e => simp [htr, hv] at h
        | ok u =>
          simp only [htr, hv, Except.ok.injEq, Prod.mk.injEq] at h
          have : art = .homepage d := h.2.1.symm
          rw [this]
          exact transformHomepageData_stamp htr
    · simp only [processExcelFile, hempty, hhome, Bool.false_eq_true, if_false,
        Except.ok.injEq, Prod.mk.injEq] at h
      have : art = .subject (transformExcelDataOptimized
          (env.parseRows (env.bytes f)) (subjectNameOf f) env.now) := h.2.1.symm
      rw [this]
      rfl

theorem processExcelFile_outName {env : Env} {f outName : String} {art : Artifact}
    {res : PFileResult} (h : processExcelFile env f = .ok (outName, art, res)) :
    outName = outputFilenameOf f := by
  by_cases hempty : (env.parseRows (env.bytes f)).isEmpty
  · simp [processExcelFile, hempty] at h
  · by_cases hhome : isHomepageFile f
    · simp only [processExcelFile, hempty, hhome, Bool.false_eq_true, if_false, if_true] at h
      cases htr : transformHomepageData (env.parseRows (env.bytes f)) (subjectNameOf f) env.now with
      | error e => simp [htr] at h
      | ok d =>
        cases hv : validateHomepageData d with
        | error e => simp [htr, hv] at h
        | ok u =>
          simp only [htr, hv, Except.ok.injEq, Prod.mk.injEq] at h
          rw [← h.1, outputFilenameOf, if_pos hhome]
    · simp only [processExcelFile, hempty, hhome, Bool.false_eq_true, if_false,
        Except.ok.injEq, Prod.mk.injEq] at h
      rw [← h.1, outputFilenameOf, if_neg hhome]

theorem processChunk_mem (env : Env) (files : List String) (cache : Cache)
    {kv : String × Artifact} (h : kv ∈ (processChunk env files cache).2) :
    kv ∈ cache ∨ artifactStamp kv.2 = env.now := by
  induction files generalizing cache with
  | nil => exact Or.inl (by simpa [processChunk] using h)
  | cons f rest ih =>
    cases hp : processExcelFile env f with
    | ok t =>
      obtain ⟨outName, art, res⟩ := t
      simp only [processChunk, hp] at h
      rcases ih _ h with hmem | hstamp
      · rcases mem_assocInsert hmem with hmem | heq
        · exact Or.inl hmem
        · refine Or.inr ?_
          rw [heq]
          exact processExcelFile_stamp hp
      · exact Or.inr hstamp
    | error e =>
      simp only [processChunk, hp] at h
      exact ih _ h

end BuildOptimize

namespace BuildOptimize

/-! ## Lemmas about the manifest -/

theorem manifestEntries_totalPages (now : String) (cache : Cache) :
    (manifestEntries now cache).2.2 =
      ((cache.filterMap fun kv => subjectPages? kv.2).sum) := by
  induction cache with
  | nil => rfl
  | cons kv rest ih =>
    cases kv with
    | mk k a =>
      cases a with
      | subject s => simp [manifestEntries, subjectPages?, ih]; omega
      | homepage h => simp [manifestEntries, subjectPages?, ih]

theorem manifestEntries_now_irrel (n₁ n₂ : String) (cache : Cache)
    (h : ∀ kv ∈ cache, subjectStampOK kv.2 = true) :
    manifestEntries n₁ cache = manifestEntries n₂ cache := by
  induction cache with
  | nil => rfl
  | cons kv rest ih =>
    have hrest := ih fun kv' hkv' => h kv' (List.mem_cons_of_mem _ hkv')
    cases kv with
    | mk k a =>
      cases a with
      | subject s =>
        have hs : s.lastUpdated ≠ "" := by
          have := h (k, .subject s) (List.mem_cons_self _ _)
          simpa [subjectStampOK] using this
        simp [manifestEntries, hrest, subjectInfoOf, jsOrS, hs]
      | homepage hp => simp [manifestEntries, hrest]

end BuildOptimize

namespace BuildOptimize

theorem runPipeline_ledger (env : Env) (l : Ledger) (c : Cache) :
    (runPipeline env l c).ledger = (detectChangedFiles env l env.files).2.2 := rfl

theorem runPipeline_cache (env : Env) (l : Ledger) (c : Cache) :
    (runPipeline env l c).cache =
      (processChunk env (detectChangedFiles env l env.files).1 c).2 := rfl

theorem runPipeline_manifest (env : Env) (l : Ledger) (c : Cache) :
    (runPipeline env l c).manifest = updateManifest env (runPipeline env l c).cache := rfl

theorem updateManifest_subjects (env : Env) (cache : Cache) :
    (updateManifest env cache).subjects = (manifestEntries env.now cache).1 := rfl

theorem updateManifest_homepages (env : Env) (cache : Cache) :
    (updateManifest env cache).homepages = (manifestEntries env.now cache).2.1 := rfl

theorem subjectStampOK_of_stamp {a : Artifact} {n : String}
    (h : artifactStamp a = n) (hn : n ≠ "") : subjectStampOK a = true := by
  cases a with
  | subject s =>
    simp only [artifactStamp] at h
    simp [subjectStampOK, h, hn]
  | homepage hp => rfl

theorem homepage_artifacts_no_pages (cache : Cache) :
    ((cache.filter fun kv => isHomepageArtifact kv.2).filterMap
      fun kv => subjectPages? kv.2) = [] := by
  induction cache with
  | nil => rfl
  | cons kv rest ih =>
    cases kv with
    | mk k a =>
      cases a with
      | subject s => simpa [isHomepageArtifact] using ih
      | homepage h => simpa [isHomepageArtifact, subjectPages?] using ih

end BuildOptimize

/-- Claim C1: after a pipeline run completes, the persisted manifest
aggregate `totalPages` equals the sum of `content.length` over all Subject
JSON artifacts in the cache directory, and artifacts classified as
Homepage Documents contribute nothing to this sum (they produce no entry
in the summed list). -/
theorem manifest_totalPages_sums_subject_artifacts
    (env : BuildOptimize.Env) (ledger₀ : BuildOptimize.Ledger)
    (cache₀ : BuildOptimize.Cache) :
    (BuildOptimize.runPipeline env ledger₀ cache₀).manifest.totalPages =
      (((BuildOptimize.runPipeline env ledger₀ cache₀).cache.filterMap
          fun kv => BuildOptimize.subjectPages? kv.2).sum) ∧
    (((BuildOptimize.runPipeline env ledger₀ cache₀).cache.filter
          fun kv => BuildOptimize.isHomepageArtifact kv.2).filterMap
        fun kv => BuildOptimize.subjectPages? kv.2) = [] := by
  constructor
  · have h := BuildOptimize.manifestEntries_totalPages env.now
      (BuildOptimize.runPipeline env ledger₀ cache₀).cache
    exact h
  · exact BuildOptimize.homepage_artifacts_no_pages _

/-- Claim C2: running the pipeline twice over the same source bytes (the
second run may happen at a different time and draws a different build id)
classifies every source file as unchanged on the second run, and the
second manifest has `subjects` and `homepages` summary lists identical to
the first.  The hypotheses record that timestamps are truthy: the clock
never yields the empty string and pre-existing subject artifacts carry a
truthy `lastUpdated`, as every artifact written by the pipeline does. -/
theorem second_run_unchanged_and_manifest_identical
    (env : BuildOptimize.Env) (now₂ buildId₂ : String)
    (ledger₀ : BuildOptimize.Ledger) (cache₀ : BuildOptimize.Cache)
    (hnow : env.now ≠ "")
    (hc₀ : ∀ kv ∈ cache₀, BuildOptimize.subjectStampOK kv.2 = true) :
    (BuildOptimize.detectChangedFiles { env with now := now₂, buildId := buildId₂ }
        (BuildOptimize.runPipeline env ledger₀ cache₀).ledger env.files).1 = [] ∧
    (BuildOptimize.detectChangedFiles { env with now := now₂, buildId := buildId₂ }
        (BuildOptimize.runPipeline env ledger₀ cache₀).ledger env.files).2.1 = env.files ∧
    (BuildOptimize.runPipeline { env with now := now₂, buildId := buildId₂ }
        (BuildOptimize.runPipeline env ledger₀ cache₀).ledger
        (BuildOptimize.runPipeline env ledger₀ cache₀).cache).manifest.subjects =
      (BuildOptimize.runPipeline env ledger₀ cache₀).manifest.subjects ∧
    (BuildOptimize.runPipeline { env with now := now₂, buildId := buildId₂ }
        (BuildOptimize.runPipeline env ledger₀ cache₀).ledger
        (BuildOptimize.runPipeline env ledger₀ cache₀).cache).manifest.homepages =
      (BuildOptimize.runPipeline env ledger₀ cache₀).manifest.homepages := by
  set env₂ : BuildOptimize.Env := { env with now := now₂, buildId := buildId₂ } with henv₂
  set r₁ := BuildOptimize.runPipeline env ledger₀ cache₀ with hr₁
  have hcomplete : ∀ f ∈ env.files,
      List.lookup f r₁.ledger = some (env.md5 (env.bytes f)) := by
    intro f hf
    rw [hr₁, BuildOptimize.runPipeline_ledger]
    exact BuildOptimize.detect_ledger_complete env env.files ledger₀ f hf
  have hdet : BuildOptimize.detectChangedFiles env₂ r₁.ledger env.files =
      ([], env.files, r₁.ledger) :=
    BuildOptimize.detect_all_unchanged env₂ env.files r₁.ledger hcomplete
  have hcache₂ : (BuildOptimize.runPipeline env₂ r₁.ledger r₁.cache).cache = r₁.cache := by
    rw [BuildOptimize.runPipeline_cache]
    have : env₂.files = env.files := rfl
    rw [this, hdet]
    rfl
  have hstamps : ∀ kv ∈ r₁.cache, BuildOptimize.subjectStampOK kv.2 = true := by
    intro kv hkv
    rw [hr₁, BuildOptimize.runPipeline_cache] at hkv
    rcases BuildOptimize.processChunk_mem env _ cache₀ hkv with hmem | hstamp
    · exact hc₀ kv hmem
    · exact BuildOptimize.subjectStampOK_of_stamp hstamp hnow
  have hentries : BuildOptimize.manifestEntries env₂.now r₁.cache =
      BuildOptimize.manifestEntries env.now r₁.cache :=
    BuildOptimize.manifestEntries_now_irrel env₂.now env.now r₁.cache hstamps
  refine ⟨?_, ?_, ?_, ?_⟩
  · rw [hdet]
  · rw [hdet]
  · rw [BuildOptimize.runPipeline_manifest env₂, BuildOptimize.updateManifest_subjects,
      hcache₂, hr₁, BuildOptimize.runPipeline_manifest env,
      BuildOptimize.updateManifest_subjects, ← hr₁, hentries]
  · rw [BuildOptimize.runPipeline_manifest env₂, BuildOptimize.updateManifest_homepages,
      hcache₂, hr₁, BuildOptimize.runPipeline_manifest env,
      BuildOptimize.updateManifest_homepages, ← hr₁, hentries]

/-- Witness for the second-run theorem at the concrete one-file
environment `envC2`. -/
theorem second_run_unchanged_and_manifest_identical_witness :
    (BuildOptimize.envC2.now ≠ "") ∧
    ((BuildOptimize.detectChangedFiles
        { BuildOptimize.envC2 with now := "T2", buildId := "B2" }
        (BuildOptimize.runPipeline BuildOptimize.envC2 [] []).ledger
        BuildOptimize.envC2.files).1 = [] ∧
      (BuildOptimize.detectChangedFiles
        { BuildOptimize.envC2 with now := "T2", buildId := "B2" }
        (BuildOptimize.runPipeline BuildOptimize.envC2 [] []).ledger
        BuildOptimize.envC2.files).2.1 = BuildOptimize.envC2.files ∧
      (BuildOptimize.runPipeline
        { BuildOptimize.envC2 with now := "T2", buildId := "B2" }
        (BuildOptimize.runPipeline BuildOptimize.envC2 [] []).ledger
        (BuildOptimize.runPipeline BuildOptimize.envC2 [] []).cache).manifest.subjects =
        (BuildOptimize.runPipeline BuildOptimize.envC2 [] []).manifest.subjects ∧
      (BuildOptimize.runPipeline
        { BuildOptimize.envC2 with now := "T2", buildId := "B2" }
        (BuildOptimize.runPipeline BuildOptimize.envC2 [] []).ledger
        (BuildOptimize.runPipeline BuildOptimize.envC2 [] []).cache).manifest.homepages =
        (BuildOptimize.runPipeline BuildOptimize.envC2 [] []).manifest.homepages) :=
  ⟨by decide,
    second_run_unchanged_and_manifest_identical BuildOptimize.envC2 "T2" "B2" [] []
      (by decide) (by simp)⟩

namespace BuildOptimize

/-! ## Lemmas for the tutorial-list and section claims -/

theorem filterMap_all_some {α β : Type} (f : α → Option β) (l : List α)
    (h : ∀ a ∈ l, (f a).isSome = true) : (l.filterMap f).length = l.length := by
  induction l with
  | nil => rfl
  | cons a rest ih =>
    have ha := h a (List.mem_cons_self _ _)
    cases hfa : f a with
    | none => rw [hfa] at ha; cases ha
    | some b =>
      simp only [List.filterMap_cons, hfa, List.length_cons]
      rw [ih fun a' ha' => h a' (List.mem_cons_of_mem _ ha')]

theorem rowTutorials_length (row : Row) :
    (rowTutorials row).length =
      min (parsePipeSeparatedField row.tutorialTitles).length
          (parsePipeSeparatedField row.tutorialUrls).length := by
  unfold rowTutorials rowTutorialsDiag
  set ts := parsePipeSeparatedField row.tutorialTitles with hts
  set us := parsePipeSeparatedField row.tutorialUrls with hus
  set m := min ts.length us.length with hm
  have hall : ∀ p ∈ (ts.take m).zip (us.take m),
      ((fun p : String × String =>
        if p.1 ≠ "" ∧ p.2 ≠ "" then some (Tutorial.mk p.1 p.2) else none) p).isSome = true := by
    intro p hp
    have h1 : p.1 ≠ "" := parsePipe_mem_ne (hts ▸ List.take_subset m ts (List.of_mem_zip hp).1)
    have h2 : p.2 ≠ "" := parsePipe_mem_ne (hus ▸ List.take_subset m us (List.of_mem_zip hp).2)
    simp [h1, h2]
  have hlen := filterMap_all_some _ _ hall
  simp only [hlen, List.length_zip, List.length_take]
  omega

theorem rowTutorials_fields_nonempty (row : Row) {t : Tutorial}
    (h : t ∈ rowTutorials row) : t.title ≠ "" ∧ t.url ≠ "" := by
  unfold rowTutorials rowTutorialsDiag at h
  rcases List.mem_filterMap.mp h with ⟨p, hp, hps⟩
  by_cases hc : p.1 ≠ "" ∧ p.2 ≠ ""
  · rw [if_pos hc] at hps
    cases hps
    exact hc
  · rw [if_neg hc] at hps
    cases hps

theorem rowTutorials_empty_of_falsy {r : Row}
    (h1 : jsTruthyS r.tutorialTitles = false) : rowTutorials r = [] := by
  simp [rowTutorials, rowTutorialsDiag, parsePipe_falsy h1]

theorem rowSection?_none_of_falsy {r : Row}
    (h1 : jsTruthyS r.tutorialTitles = false) : rowSection? r = none := by
  rw [rowSection?, rowTutorials_empty_of_falsy h1]

end BuildOptimize


/-- Counterexample to claim C3 as stated: processing `Jetpack_Compose.xlsx`
derives the Subject id `jetpack_compose` (basename lowercased, underscore
kept), not the slugified `jetpack-compose` the claim requires. -/
theorem subject_id_not_slugified :
    (BuildOptimize.processExcelFile BuildOptimize.envC3 "Jetpack_Compose.xlsx").toOption.map
        (fun r => BuildOptimize.artifactId r.2.1) = some "jetpack_compose" ∧
    "jetpack_compose" ≠ "jetpack-compose" := by
  constructor
  · decide
  · decide

/-- Claim C3 (amended): for every non-homepage source file that parses to
at least one row, the derived Subject id (and the stem of the emitted
artifact name) is the file base name with the `.xlsx` suffix removed,
lowercased as-is; no slugification of underscores, spaces or other
characters occurs, so `Jetpack_Compose.xlsx` yields the id
`jetpack_compose`. -/
theorem subject_id_is_lowercased_basename
    (env : BuildOptimize.Env) (filename : String)
    (hh : BuildOptimize.isHomepageFile filename = false)
    (hne : (env.parseRows (env.bytes filename)).isEmpty = false) :
    (BuildOptimize.processExcelFile env filename).map
        (fun r => (r.1, BuildOptimize.artifactId r.2.1)) =
      .ok (BuildOptimize.specSubjectId filename ++ ".json",
        BuildOptimize.specSubjectId filename) := by
  simp only [BuildOptimize.processExcelFile, hne, hh, Bool.false_eq_true, if_false]
  simp only [Except.map, BuildOptimize.artifactId]
  simp [BuildOptimize.subjectNameOf, hh, BuildOptimize.specSubjectId,
    BuildOptimize.transformExcelDataOptimized]

/-- Witness for the amended subject-id theorem at `Jetpack_Compose.xlsx`. -/
theorem subject_id_is_lowercased_basename_witness :
    BuildOptimize.isHomepageFile "Jetpack_Compose.xlsx" = false ∧
    (BuildOptimize.envC3.parseRows
        (BuildOptimize.envC3.bytes "Jetpack_Compose.xlsx")).isEmpty = false ∧
    (BuildOptimize.processExcelFile BuildOptimize.envC3 "Jetpack_Compose.xlsx").map
        (fun r => (r.1, BuildOptimize.artifactId r.2.1)) =
      .ok (BuildOptimize.specSubjectId "Jetpack_Compose.xlsx" ++ ".json",
        BuildOptimize.specSubjectId "Jetpack_Compose.xlsx") :=
  ⟨by decide, by decide,
    subject_id_is_lowercased_basename BuildOptimize.envC3 "Jetpack_Compose.xlsx"
      (by decide) (by decide)⟩

/-- Claim C4: for a homepage row whose parsed pipe-separated tutorial
title and url lists differ in length, the transformer raises the
length-mismatch diagnostic, truncates both lists to the shorter length
(the emitted tutorials count equals that minimum), and every emitted
tutorial entry carries a nonempty title and a nonempty url. -/
theorem mismatched_tutorial_lists_truncated (row : Row)
    (hmis : (parsePipeSeparatedField row.tutorialTitles).length ≠
            (parsePipeSeparatedField row.tutorialUrls).length) :
    (BuildOptimize.rowTutorialsDiag row).2 = true ∧
    (BuildOptimize.rowTutorials row).length =
      min (parsePipeSeparatedField row.tutorialTitles).length
          (parsePipeSeparatedField row.tutorialUrls).length ∧
    (BuildOptimize.rowTutorials row).all
      (fun t => t.title != "" && t.url != "") = true := by
  refine ⟨?_, BuildOptimize.rowTutorials_length row, ?_⟩
  · simp [BuildOptimize.rowTutorialsDiag, hmis]
  · rw [List.all_eq_true]
    intro t ht
    have h := BuildOptimize.rowTutorials_fields_nonempty row ht
    simp [h.1, h.2]

/-- Witness for the mismatch theorem at a concrete row with three titles
and two urls: the diagnostic fires and exactly two complete tutorials are
emitted. -/
theorem mismatched_tutorial_lists_truncated_witness :
    (parsePipeSeparatedField rowC4.tutorialTitles).length ≠
      (parsePipeSeparatedField rowC4.tutorialUrls).length ∧
    ((BuildOptimize.rowTutorialsDiag rowC4).2 = true ∧
      (BuildOptimize.rowTutorials rowC4).length =
        min (parsePipeSeparatedField rowC4.tutorialTitles).length
            (parsePipeSeparatedField rowC4.tutorialUrls).length ∧
      (BuildOptimize.rowTutorials rowC4).all
        (fun t => t.title != "" && t.url != "") = true) :=
  ⟨by decide, mismatched_tutorial_lists_truncated rowC4 (by decide)⟩

/-- Counterexample to claim C5 as stated: two homepage rows with the same
section name `Basics` produce two separate sections named `Basics` in the
output, not exactly one merged section. -/
theorem duplicate_section_names_not_merged :
    (BuildOptimize.transformHomepageData [rowC5a, rowC5b] "kotlin" "T").toOption.map
        (fun d => d.sections.map (fun s => s.name)) =
      some ["Basics", "Basics"] ∧
    (["Basics", "Basics"] : List String) ≠ ["Basics"] := by
  constructor
  · decide
  · decide

/-- Claim C5 (amended): each homepage row whose parsed tutorial list is
nonempty contributes its own section to the output, in row order; rows
sharing a section name are not merged and yield one (duplicate) section
each, while rows without tutorials contribute nothing. -/
theorem homepage_sections_one_per_contributing_row
    (r : Row) (rest : List Row) (name now : String) :
    (BuildOptimize.transformHomepageData (r :: rest) name now).map
        (fun d => d.sections) =
      .ok ((r :: rest).filterMap BuildOptimize.rowSection?) := by
  simp only [BuildOptimize.transformHomepageData, Except.map,
    BuildOptimize.homepageSections_eq_filterMap]

/-- Claim C6: the homepage transformer is extensionally the
detect-and-dispatch parser of the specification: when the first row has a
title but no section fields (layout b), the output is that of the
dedicated parser taking metadata from the first row and sections from the
remaining rows only; otherwise it is that of the combined parser reading
sections from every row.  The detection is exact because a first row
without section fields can contribute no section of its own. -/
theorem homepage_layout_autodetect_dispatch (rows : List Row) (name now : String) :
    BuildOptimize.transformHomepageData rows name now =
      BuildOptimize.specHomepageParse rows name now := by
  cases rows with
  | nil => rfl
  | cons r rest =>
    simp only [BuildOptimize.transformHomepageData, BuildOptimize.specHomepageParse]
    by_cases hd : BuildOptimize.detectLayoutB (r :: rest) = true
    · have hfields : BuildOptimize.hasSectionFields r = false := by
        have h := hd
        simp only [BuildOptimize.detectLayoutB, Bool.and_eq_true,
          Bool.not_eq_true'] at h
        exact h.2
      have hfalse : jsTruthyS r.tutorialTitles = false := by
        simp only [BuildOptimize.hasSectionFields, Bool.or_eq_false_iff] at hfields
        exact hfields.1.2
      have hnone := BuildOptimize.rowSection?_none_of_falsy hfalse
      simp [hd, BuildOptimize.homepageSections_eq_filterMap, List.filterMap_cons, hnone]
    · simp [hd, BuildOptimize.homepageSections_eq_filterMap]

theorem getElem?_mapIdxAux {α β : Type} (f : Nat → α → β) (l : List α) (k i : Nat) :
    (mapIdxAux f k l)[i]? = (l[i]?).map (f (k + i)) := by
  induction l generalizing k i with
  | nil => simp [mapIdxAux]
  | cons a rest ih =>
    cases i with
    | zero => simp [mapIdxAux]
    | succ n =>
      have harith : k + 1 + n = k + (n + 1) := by omega
      simp only [mapIdxAux, List.getElem?_cons_succ, ih, harith]

theorem getElem?_jsMapIdx {α β : Type} (f : Nat → α → β) (l : List α) (i : Nat) :
    (jsMapIdx f l)[i]? = (l[i]?).map (f i) := by
  have h := getElem?_mapIdxAux f l 0 i
  simpa [jsMapIdx] using h

theorem jsOr_falsy {v : Option String} {d : String} (h : jsTruthyS v = false) :
    jsOr v d = d := by
  cases v with
  | none => rfl
  | some s =>
    have hs : s = "" := by
      by_contra hne
      simp [jsTruthyS, hne] at h
    simp [jsOr, hs]

/-- Claim C7: a content row without a truthy `shortDesc` gets its emitted
`shortDesc` derived from its `content` by the markdown-stripping cleaner,
truncated to 155 characters with an appended ellipsis exactly when the
cleaned text is longer; the scenario row with content
`# Intro\nHello world` yields `Intro Hello world`. -/
theorem shortdesc_derived_stripped_truncated
    (rows : List Row) (name now : String) (row : Row) (i : Nat)
    (hrow : rows[i]? = some row)
    (hshort : jsTruthyS row.shortDesc = false) :
    ((BuildOptimize.transformExcelDataOptimized rows name now).content[i]?).map
        (fun it => it.shortDesc) = some (extractShortDescOptimized row.content) ∧
    extractShortDescOptimized row.content =
      (if 155 < (cleanedText (jsOr row.content "")).data.length
       then String.mk ((cleanedText (jsOr row.content "")).data.take 155) ++ "..."
       else cleanedText (jsOr row.content "")) ∧
    extractShortDescOptimized (some "# Intro\nHello world") = "Intro Hello world" := by
  refine ⟨?_, ?_, by decide⟩
  · have hc : (BuildOptimize.transformExcelDataOptimized rows name now).content =
        jsMapIdx (BuildOptimize.contentItemOfRow now) rows := rfl
    rw [hc, getElem?_jsMapIdx, hrow]
    simp [BuildOptimize.contentItemOfRow, jsOr_falsy hshort]
  · cases hcont : row.content with
    | none => decide
    | some c =>
      by_cases hce : c = ""
      · subst hce
        decide
      · simp [extractShortDescOptimized, jsOr, hce]

/-- Witness for the short-description theorem at the scenario row. -/
theorem shortdesc_derived_stripped_truncated_witness :
    ([rowC7][0]? = some rowC7) ∧
    jsTruthyS rowC7.shortDesc = false ∧
    (((BuildOptimize.transformExcelDataOptimized [rowC7] "kotlin" "T").content[0]?).map
        (fun it => it.shortDesc) = some (extractShortDescOptimized rowC7.content) ∧
      extractShortDescOptimized rowC7.content =
        (if 155 < (cleanedText (jsOr rowC7.content "")).data.length
         then String.mk ((cleanedText (jsOr rowC7.content "")).data.take 155) ++ "..."
         else cleanedText (jsOr rowC7.content "")) ∧
      extractShortDescOptimized (some "# Intro\nHello world") = "Intro Hello world") :=
  ⟨by decide, by decide,
    shortdesc_derived_stripped_truncated [rowC7] "kotlin" "T" rowC7 0
      (by decide) (by decide)⟩

/-- Claim C8: a source file that parses to zero rows fails with an error
scoped to that file only: processing a worker file list containing it
yields exactly the cache and statistics of the list without it, except for
one additional counted error — the remaining files are still processed,
and the failing file writes no artifact. -/
theorem zero_row_file_fails_alone
    (env : BuildOptimize.Env) (cache : BuildOptimize.Cache)
    (xs ys : List String) (f : String)
    (hf : env.parseRows (env.bytes f) = []) :
    BuildOptimize.processChunk env (xs ++ f :: ys) cache =
      ({ (BuildOptimize.processChunk env (xs ++ ys) cache).1 with
          errors := (BuildOptimize.processChunk env (xs ++ ys) cache).1.errors + 1 },
        (BuildOptimize.processChunk env (xs ++ ys) cache).2) := by
  have herr : BuildOptimize.processExcelFile env f =
      .error ("Failed to process " ++ f ++ ": No data found in Excel file") := by
    simp [BuildOptimize.processExcelFile, hf]
  induction xs generalizing cache with
  | nil => simp [BuildOptimize.processChunk, herr]
  | cons x rest ih =>
    cases hx : BuildOptimize.processExcelFile env x with
    | ok t =>
      obtain ⟨outName, art, res⟩ := t
      simp only [List.cons_append, BuildOptimize.processChunk, hx, List.append_eq]
      rw [ih]
    | error e =>
      simp only [List.cons_append, BuildOptimize.processChunk, hx, List.append_eq]
      rw [ih]

/-- Witness for the zero-row failure theorem: in `envC8` the file
`Bad.xlsx` parses to zero rows, the run continues with `Good.xlsx`, whose
artifact is still produced, and one error is counted. -/
theorem zero_row_file_fails_alone_witness :
    BuildOptimize.envC8.parseRows (BuildOptimize.envC8.bytes "Bad.xlsx") = [] ∧
    BuildOptimize.processChunk BuildOptimize.envC8 (([] : List String) ++ "Bad.xlsx" :: ["Good.xlsx"]) [] =
      ({ (BuildOptimize.processChunk BuildOptimize.envC8 (([] : List String) ++ ["Good.xlsx"]) []).1 with
          errors := (BuildOptimize.processChunk BuildOptimize.envC8 (([] : List String) ++ ["Good.xlsx"]) []).1.errors + 1 },
        (BuildOptimize.processChunk BuildOptimize.envC8 (([] : List String) ++ ["Good.xlsx"]) []).2) :=
  ⟨by decide,
    zero_row_file_fails_alone BuildOptimize.envC8 [] [] ["Good.xlsx"] "Bad.xlsx" (by decide)⟩

theorem map_mapIdxAux {α β γ : Type} (f : Nat → α → β) (g : β → γ) (l : List α) (k : Nat) :
    (mapIdxAux f k l).map g = mapIdxAux (fun i a => g (f i a)) k l := by
  induction l generalizing k with
  | nil => rfl
  | cons a rest ih => simp [mapIdxAux, ih]

theorem mapIdxAux_const {α β : Type} (g : α → β) (l : List α) (k : Nat) :
    mapIdxAux (fun _ a => g a) k l = l.map g := by
  induction l generalizing k with
  | nil => rfl
  | cons a rest ih => simp [mapIdxAux, ih]

/-- Claim C9: in the V3 transformer, blog subjects omit the per-item
`type` and `section` fields and the subject-level `sections` and
`totalSections` aggregates entirely, while every other subject carries a
`type` and a `section` (defaulting to `General`) on each item and the
`sections` aggregate on the subject record. -/
theorem blog_subjects_omit_section_and_type
    (rows : List Row) (name now : String) (hnb : name ≠ "blogs") :
    ((V3.transformExcelDataOptimized rows "blogs" now).content.map (fun it => it.type) =
        rows.map (fun _ => (none : Option Nat))) ∧
    ((V3.transformExcelDataOptimized rows "blogs" now).content.map (fun it => it.«section») =
        rows.map (fun _ => (none : Option String))) ∧
    (V3.transformExcelDataOptimized rows "blogs" now).sections = none ∧
    (V3.transformExcelDataOptimized rows "blogs" now).totalSections = none ∧
    ((V3.transformExcelDataOptimized rows name now).content.map (fun it => it.type) =
        rows.map (fun row => some (jsOrNat row.type 1))) ∧
    ((V3.transformExcelDataOptimized rows name now).content.map (fun it => it.«section») =
        rows.map (fun row => some (jsOr row.«section» "General"))) ∧
    (V3.transformExcelDataOptimized rows name now).sections.isSome = true ∧
    (V3.transformExcelDataOptimized rows name now).totalSections.isSome = true := by
  refine ⟨?_, ?_, ?_, ?_, ?_, ?_, ?_, ?_⟩ <;>
    simp [V3.transformExcelDataOptimized, V3.itemOfRow, jsMapIdx, map_mapIdxAux,
      mapIdxAux_const, hnb]

/-- Witness for the blog-field theorem at the subject name `kotlin`. -/
theorem blog_subjects_omit_section_and_type_witness :
    ("kotlin" : String) ≠ "blogs" ∧
    (((V3.transformExcelDataOptimized [rowC9] "blogs" "T").content.map (fun it => it.type) =
        [rowC9].map (fun _ => (none : Option Nat))) ∧
      ((V3.transformExcelDataOptimized [rowC9] "blogs" "T").content.map (fun it => it.«section») =
        [rowC9].map (fun _ => (none : Option String))) ∧
      (V3.transformExcelDataOptimized [rowC9] "blogs" "T").sections = none ∧
      (V3.transformExcelDataOptimized [rowC9] "blogs" "T").totalSections = none ∧
      ((V3.transformExcelDataOptimized [rowC9] "kotlin" "T").content.map (fun it => it.type) =
        [rowC9].map (fun row => some (jsOrNat row.type 1))) ∧
      ((V3.transformExcelDataOptimized [rowC9] "kotlin" "T").content.map (fun it => it.«section») =
        [rowC9].map (fun row => some (jsOr row.«section» "General"))) ∧
      (V3.transformExcelDataOptimized [rowC9] "kotlin" "T").sections.isSome = true ∧
      (V3.transformExcelDataOptimized [rowC9] "kotlin" "T").totalSections.isSome = true) :=
  ⟨by decide, blog_subjects_omit_section_and_type [rowC9] "kotlin" "T" (by decide)⟩

namespace BuildOptimize

theorem detect_mem_changed (env : Env) (files : List String) (ledger : Ledger)
    (f : String) (hf : f ∈ files)
    (hch : List.lookup f ledger ≠ some (env.md5 (env.bytes f))) :
    f ∈ (detectChangedFiles env ledger files).1 := by
  induction files generalizing ledger with
  | nil => cases hf
  | cons g rest ih =>
    by_cases hg : List.lookup g ledger = some (env.md5 (env.bytes g))
    · rcases List.mem_cons.mp hf with h | h
      · subst h
        exact absurd hg hch
      · simp only [detectChangedFiles, if_pos hg]
        exact ih ledger h hch
    · simp only [detectChangedFiles, if_neg hg]
      by_cases hfg : f = g
      · subst hfg
        exact List.mem_cons_self _ _
      · refine List.mem_cons_of_mem _ ?_
        rcases List.mem_cons.mp hf with h | h
        · exact absurd h hfg
        · refine ih _ h ?_
          rwa [lookup_assocInsert_ne _ _ _ _ hfg]

theorem detect_changed_subset (env : Env) (files : List String) (ledger : Ledger) :
    ∀ f ∈ (detectChangedFiles env ledger files).1, f ∈ files := by
  induction files generalizing ledger with
  | nil =>
    intro f hf
    simp [detectChangedFiles] at hf
  | cons g rest ih =>
    intro f hf
    by_cases hg : List.lookup g ledger = some (env.md5 (env.bytes g))
    · simp only [detectChangedFiles, if_pos hg] at hf
      exact List.mem_cons_of_mem _ (ih ledger f hf)
    · simp only [detectChangedFiles, if_neg hg] at hf
      rcases List.mem_cons.mp hf with h | h
      · exact h ▸ List.mem_cons_self _ _
      · exact List.mem_cons_of_mem _ (ih _ f h)

theorem processChunk_lookup_preserved (env : Env) (files : List String)
    (cache : Cache) (nm : String)
    (h : ∀ g ∈ files, ∀ o a r, processExcelFile env g = .ok (o, a, r) → o ≠ nm) :
    List.lookup nm (processChunk env files cache).2 = List.lookup nm cache := by
  induction files generalizing cache with
  | nil => rfl
  | cons g rest ih =>
    cases hg : processExcelFile env g with
    | ok t =>
      obtain ⟨o, a, r⟩ := t
      have hne : o ≠ nm := h g (List.mem_cons_self _ _) o a r hg
      simp only [processChunk, hg]
      rw [ih _ fun g' hg' => h g' (List.mem_cons_of_mem _ hg')]
      exact lookup_assocInsert_ne cache o nm a (Ne.symm hne)
    | error e =>
      simp only [processChunk, hg]
      exact ih _ fun g' hg' => h g' (List.mem_cons_of_mem _ hg')

end BuildOptimize

/-- Claim C10: a file the Change Detector classifies as changed gets its
new hash into the in-memory ledger even when its transformation then
fails; the run still persists that ledger, that file writes no artifact,
and a following run over identical bytes classifies the failed file as
unchanged, regenerating nothing: the cache after the second run is the
cache after the first. -/
theorem failed_transform_hash_persisted_blocks_rebuild
    (env : BuildOptimize.Env) (ledger₀ : BuildOptimize.Ledger)
    (cache₀ : BuildOptimize.Cache) (f : String) (now₂ buildId₂ : String)
    (hf : f ∈ env.files)
    (hchanged : List.lookup f ledger₀ ≠ some (env.md5 (env.bytes f)))
    (e : String) (hfail : BuildOptimize.processExcelFile env f = .error e)
    (huniq : ∀ g ∈ env.files, g ≠ f →
      BuildOptimize.outputFilenameOf g ≠ BuildOptimize.outputFilenameOf f) :
    f ∈ (BuildOptimize.detectChangedFiles env ledger₀ env.files).1 ∧
    List.lookup f (BuildOptimize.runPipeline env ledger₀ cache₀).ledger =
      some (env.md5 (env.bytes f)) ∧
    List.lookup (BuildOptimize.outputFilenameOf f)
        (BuildOptimize.runPipeline env ledger₀ cache₀).cache =
      List.lookup (BuildOptimize.outputFilenameOf f) cache₀ ∧
    f ∈ (BuildOptimize.detectChangedFiles { env with now := now₂, buildId := buildId₂ }
          (BuildOptimize.runPipeline env ledger₀ cache₀).ledger env.files).2.1 ∧
    (BuildOptimize.runPipeline { env with now := now₂, buildId := buildId₂ }
        (BuildOptimize.runPipeline env ledger₀ cache₀).ledger
        (BuildOptimize.runPipeline env ledger₀ cache₀).cache).cache =
      (BuildOptimize.runPipeline env ledger₀ cache₀).cache := by
  set env₂ : BuildOptimize.Env := { env with now := now₂, buildId := buildId₂ } with henv₂
  have hcomplete : ∀ g ∈ env.files,
      List.lookup g (BuildOptimize.runPipeline env ledger₀ cache₀).ledger =
        some (env.md5 (env.bytes g)) := by
    intro g hg
    rw [BuildOptimize.runPipeline_ledger]
    exact BuildOptimize.detect_ledger_complete env env.files ledger₀ g hg
  have hdet : BuildOptimize.detectChangedFiles env₂
      (BuildOptimize.runPipeline env ledger₀ cache₀).ledger env.files =
      ([], env.files, (BuildOptimize.runPipeline env ledger₀ cache₀).ledger) :=
    BuildOptimize.detect_all_unchanged env₂ env.files _ hcomplete
  refine ⟨?_, hcomplete f hf, ?_, ?_, ?_⟩
  · exact BuildOptimize.detect_mem_changed env env.files ledger₀ f hf hchanged
  · rw [BuildOptimize.runPipeline_cache]
    refine BuildOptimize.processChunk_lookup_preserved env _ cache₀ _ ?_
    intro g hg o a r hok
    have hgf : g ∈ env.files :=
      BuildOptimize.detect_changed_subset env env.files ledger₀ g hg
    by_cases hgeq : g = f
    · subst hgeq
      rw [hfail] at hok
      cases hok
    · have ho := BuildOptimize.processExcelFile_outName hok
      rw [ho]
      exact huniq g hgf hgeq
  · rw [hdet]
    exact hf
  · rw [BuildOptimize.runPipeline_cache]
    have hfiles : env₂.files = env.files := rfl
    rw [hfiles, hdet]
    rfl

/-- Witness for the failed-transform ledger theorem: in `envC10` the only
file parses to zero rows, so its processing fails, yet its hash lands in
the ledger and the second run leaves everything untouched. -/
theorem failed_transform_hash_persisted_blocks_rebuild_witness :
    ("Bad.xlsx" ∈ BuildOptimize.envC10.files) ∧
    (List.lookup "Bad.xlsx" ([] : BuildOptimize.Ledger) ≠
      some (BuildOptimize.envC10.md5 (BuildOptimize.envC10.bytes "Bad.xlsx"))) ∧
    (BuildOptimize.processExcelFile BuildOptimize.envC10 "Bad.xlsx" =
      Except.error "Failed to process Bad.xlsx: No data found in Excel file") ∧
    ("Bad.xlsx" ∈ (BuildOptimize.detectChangedFiles BuildOptimize.envC10 [] BuildOptimize.envC10.files).1 ∧
      List.lookup "Bad.xlsx" (BuildOptimize.runPipeline BuildOptimize.envC10 [] []).ledger =
        some (BuildOptimize.envC10.md5 (BuildOptimize.envC10.bytes "Bad.xlsx")) ∧
      List.lookup (BuildOptimize.outputFilenameOf "Bad.xlsx")
          (BuildOptimize.runPipeline BuildOptimize.envC10 [] []).cache =
        List.lookup (BuildOptimize.outputFilenameOf "Bad.xlsx") ([] : BuildOptimize.Cache) ∧
      "Bad.xlsx" ∈ (BuildOptimize.detectChangedFiles
          { BuildOptimize.envC10 with now := "T2", buildId := "B2" }
          (BuildOptimize.runPipeline BuildOptimize.envC10 [] []).ledger
          BuildOptimize.envC10.files).2.1 ∧
      (BuildOptimize.runPipeline { BuildOptimize.envC10 with now := "T2", buildId := "B2" }
          (BuildOptimize.runPipeline BuildOptimize.envC10 [] []).ledger
          (BuildOptimize.runPipeline BuildOptimize.envC10 [] []).cache).cache =
        (BuildOptimize.runPipeline BuildOptimize.envC10 [] []).cache) :=
  ⟨by decide, by decide, by rfl,
    failed_transform_hash_persisted_blocks_rebuild BuildOptimize.envC10 [] [] "Bad.xlsx"
      "T2" "B2" (by decide) (by decide)
      "Failed to process Bad.xlsx: No data found in Excel file" (by rfl) (by decide)⟩
